import Mathlib

/-!
Shallow embedding of `src/bluez/adapter/peripheral.rs` (btleplug, BlueZ D-Bus
backend): the peripheral's attribute registry, range-building algorithm,
property-update handler and blocking facade operations, together with proofs
about the specification's claims.

Machine integers (`u16`, `u8`) are modelled as `Nat` with explicit `% 2^w`
where wrapping matters.  The `attributes_map : HashMap<u16, _>` is modelled by
its iteration order: a list of key/entry pairs with pairwise-distinct keys.
`HashMap` iteration order in Rust is arbitrary (per-instance random seed), so
facts about code that iterates the map must hold for — or are refuted by —
admissible orders.
-/

namespace Btleplug

/-- `bluez::AttributeType` (the type tag parsed out of a D-Bus object path). -/
inductive AttributeType
  | Service
  | Characteristic
  | Descriptor
  | Unknown
deriving DecidableEq, Repr

/-- `bluez::Handle`: numeric attribute handle (`u16`) plus its type tag. -/
structure Handle where
  handle : Nat
  typ : AttributeType
deriving DecidableEq, Repr

/-- `api::UUID`, opaque here: only equality of UUIDs is used by this file's code. -/
abbrev UUID := Nat

/-- `api::CharPropFlags`, opaque bitset: only carried around, never inspected. -/
abbrev CharPropFlags := Nat

/-- `api::Characteristic` (value object), fields as in the Rust struct.
`uuid` is a `UUID` and `properties` a `CharPropFlags`; both are `Nat` here and
the fields are declared as plain `Nat` (the abbreviations are kept reducible
for signatures). -/
structure Characteristic where
  start_handle : Nat
  end_handle : Nat
  value_handle : Nat
  uuid : Nat
  properties : Nat
deriving DecidableEq, Repr

/-- Modelled from the spec: the total order used by the ordered characteristic
set (`BTreeSet<Characteristic>` relies on `Ord for api::Characteristic`, which
lives in `crate::api`, outside this source tree).  The spec says the ordering
"is total and derived from handle values (so ranges are directly comparable)";
we take the lexicographic order on the fields in declaration order
(start_handle, end_handle, value_handle, uuid, properties), which is what a
derived structural ordering on the Rust struct yields. -/
def Characteristic.lt (a b : Characteristic) : Bool :=
  if a.start_handle ≠ b.start_handle then a.start_handle < b.start_handle
  else if a.end_handle ≠ b.end_handle then a.end_handle < b.end_handle
  else if a.value_handle ≠ b.value_handle then a.value_handle < b.value_handle
  else if a.uuid ≠ b.uuid then a.uuid < b.uuid
  else a.properties < b.properties

/-- One value of the `attributes_map`: `(String, Handle, Characteristic)`. -/
structure AttributeEntry where
  path : String
  handle : Handle
  char : Characteristic
deriving DecidableEq, Repr

/-- The contents of `attributes_map: HashMap<u16, (String, Handle, Characteristic)>`
in iteration order.  Keys are pairwise distinct (HashMap invariant); iteration
order is otherwise arbitrary. -/
abbrev Registry := List (Nat × AttributeEntry)

/-- `crate::Error` — the error kinds this file constructs or passes through. -/
inductive Error
  | NotConnected
  | TimedOut (secs : Nat)
  | NotSupported (op : String)
  | DBus
deriving DecidableEq, Repr

/-- `PeripheralState` with its derived `PartialOrd`
(`NotConnected < Connected < ServicesResolved`). -/
inductive PeripheralState
  | NotConnected
  | Connected
  | ServicesResolved
deriving DecidableEq, Repr

/-- Variant index, realising the derived ordering of `PeripheralState`. -/
def PeripheralState.idx : PeripheralState → Nat
  | .NotConnected => 0
  | .Connected => 1
  | .ServicesResolved => 2

/-- Replace-or-append insertion into the registry: `HashMap::insert` keyed by
the numeric handle.  A present key keeps its iteration position and gets the
new entry; an absent key is placed at an arbitrary position (appending is one
admissible order — theorems over `Registry` quantify over orders anyway). -/
def registryInsert (key : Nat) (e : AttributeEntry) : Registry → Registry
  | [] => [(key, e)]
  | (k, old) :: rest =>
    if k = key then (key, e) :: rest else (k, old) :: registryInsert key e rest

/-- `Peripheral::add_attribute`: parse the handle out of the path (the parser
lives in `crate::bluez`, outside this tree, so the parsed `Handle` is a
parameter), build a placeholder characteristic
(`start_handle = end_handle = 0`, `value_handle = handle`), and insert it
keyed by the numeric handle, replacing any previous entry (logged, not an
error). -/
def add_attribute (reg : Registry) (path : String) (parsed : Handle)
    (uuid : UUID) (props : CharPropFlags) : Registry :=
  let attrib : Characteristic :=
    { uuid := uuid
      value_handle := parsed.handle
      properties := props
      end_handle := 0
      start_handle := 0 }
  registryInsert parsed.handle ⟨path, parsed, attrib⟩ reg

/-- `BTreeSet<Characteristic>::insert` on the sorted-list model of the set:
keep the list strictly sorted by `Characteristic.lt`; inserting an element
already present changes nothing. -/
def setInsert (c : Characteristic) : List Characteristic → List Characteristic
  | [] => [c]
  | x :: xs =>
    if Characteristic.lt c x then c :: x :: xs
    else if c = x then x :: xs
    else x :: setInsert c xs

/-- The registry entries whose handle is `Service`-typed, as the
`(Handle, Characteristic)` pairs the first filter/map in
`build_characteristic_ranges` produces, in registry iteration order. -/
def servicesStream (reg : Registry) : List (Handle × Characteristic) :=
  (reg.filter (fun e => e.2.handle.typ = AttributeType.Service)).map
    (fun e => (e.2.handle, e.2.char))

/-- The registry entries whose handle is `Characteristic`-typed, as produced
by the second filter/map in `build_characteristic_ranges`. -/
def characteristicsStream (reg : Registry) : List (Handle × Characteristic) :=
  (reg.filter (fun e => e.2.handle.typ = AttributeType.Characteristic)).map
    (fun e => (e.2.handle, e.2.char))

/-- One `while let Some(..) = stream.next()` loop of
`build_characteristic_ranges`: for each stream element, insert a
characteristic whose `end_handle` is the peeked next element's handle minus
one, or `u16::MAX` when the stream is exhausted. -/
def insertRanges : List (Handle × Characteristic) → List Characteristic → List Characteristic
  | [], s => s
  | (handle, attrib) :: rest, s =>
    let e := match rest with
      | [] => 65535
      | (n, _) :: _ => n.handle - 1
    insertRanges rest (setInsert
      { start_handle := handle.handle
        end_handle := e
        value_handle := handle.handle
        properties := attrib.properties
        uuid := attrib.uuid } s)

/-- The list of range entries one stream contributes, without the set
insertion — used to state per-stream facts ("Service-derived entries"). -/
def rangesOf : List (Handle × Characteristic) → List Characteristic
  | [] => []
  | (handle, attrib) :: rest =>
    let e := match rest with
      | [] => 65535
      | (n, _) :: _ => n.handle - 1
    { start_handle := handle.handle
      end_handle := e
      value_handle := handle.handle
      properties := attrib.properties
      uuid := attrib.uuid } :: rangesOf rest

/-- `Peripheral::build_characteristic_ranges`: clear the cached set, then walk
the Service-typed stream and the Characteristic-typed stream (each in registry
iteration order), inserting a range entry per element. -/
def build_characteristic_ranges (reg : Registry) : List Characteristic :=
  insertRanges (characteristicsStream reg) (insertRanges (servicesStream reg) [])

/-- `api::PeripheralProperties` — the fields `update_properties` touches.
`address` and `address_type` parsing live in `crate::api` (outside this tree);
the address type is therefore kept as the raw string delivered on the bus. -/
structure PeripheralProperties where
  local_name : Option String
  manufacturer_data : Option (List Nat)
  address_type : String
  tx_power_level : Option Int
  discovery_count : Nat
deriving DecidableEq, Repr

/-- `rssi as i8`: two's-complement narrowing of an `i64` to `i8`. -/
def toI8 (v : Int) : Int :=
  let m := v % 256
  if 128 ≤ m then m - 256 else m

/-- The "ManufacturerData" loop of `update_properties`: walk the decoded
dictionary two items at a time as `(id, data)` pairs, appending
`put_u16_le(id as u64 as u16)` (low byte first) and then the payload bytes,
each narrowed `as u8`. -/
def encodeManufacturerData : List (Nat × List Nat) → List Nat
  | [] => []
  | (id, data) :: rest =>
    (id % 65536 % 256) :: (id % 65536 / 256) :: (data.map (fun b => b % 256))
      ++ encodeManufacturerData rest

/-- The decoded changed-properties batch handed to `update_properties`: one
optional entry per recognized key, already unwrapped from its D-Bus `Variant`
(`Connected`/`ServicesResolved` as `as_u64() > 0`, `ManufacturerData` as the
`(id, payload)` dictionary in iteration order, `RSSI` as `as_i64()`).
A `Name` value that is not a string (which would store `None`) is not
modelled. -/
structure PropArgs where
  connected : Option Bool
  name : Option String
  servicesResolved : Option Bool
  manufacturerData : Option (List (Nat × List Nat))
  addressType : Option String
  rssi : Option Int
deriving Repr

/-- A batch containing no recognized key. -/
def noArgs : PropArgs := ⟨none, none, none, none, none, none⟩

/-- The shared mutable fields of `Peripheral` that this file's methods read or
write (`listen_token`'s `Token` is an opaque number). -/
structure Peripheral where
  props : PeripheralProperties
  state : PeripheralState
  characteristics : List Characteristic
  attributes_map : Registry
  listen_token : Option Nat
deriving Repr

/-- Result of one `update_properties` call: the mutated peripheral plus
whether each of the two `cvar.notify_all()` sites ran. -/
structure UpdateOutcome where
  peripheral : Peripheral
  connectedNotifyAll : Bool
  servicesResolvedNotifyAll : Bool
deriving Repr

/-- `Peripheral::update_properties`, branch for branch in source order:
increment `discovery_count`; on `Connected` drive the state machine and
notify; on `Name` replace the cached name; on `ServicesResolved` rebuild the
ranges if true, set the state to `ServicesResolved` if true, and notify either
way; on `ManufacturerData` store the re-encoded blob; on `AddressType` store
the (externally parsed) value; on `RSSI` store the narrowed value. -/
def update_properties (p : Peripheral) (args : PropArgs) : UpdateOutcome :=
  let props := { p.props with discovery_count := p.props.discovery_count + 1 }
  let stateAndNotify :=
    match args.connected with
    | none => (p.state, false)
    | some connected =>
      (if connected ∧ p.state = PeripheralState.NotConnected then .Connected
       else if ¬ connected then .NotConnected
       else p.state, true)
  let state := stateAndNotify.1
  let props := match args.name with
    | none => props
    | some n => { props with local_name := some n }
  let stateCharsNotify :=
    match args.servicesResolved with
    | none => (state, p.characteristics, false)
    | some services_resolved =>
      if services_resolved then
        (.ServicesResolved, build_characteristic_ranges p.attributes_map, true)
      else (state, p.characteristics, true)
  let props := match args.manufacturerData with
    | none => props
    | some entries => { props with manufacturer_data := some (encodeManufacturerData entries) }
  let props := match args.addressType with
    | none => props
    | some s => { props with address_type := s }
  let props := match args.rssi with
    | none => props
    | some v => { props with tx_power_level := some (toI8 v) }
  { peripheral :=
      { p with
        props := props
        state := stateCharsNotify.1
        characteristics := stateCharsNotify.2.1 }
    connectedNotifyAll := stateAndNotify.2
    servicesResolvedNotifyAll := stateCharsNotify.2.2 }

/-- The reply of `self.proxy().connect()`, classified exactly as the source's
match on `error.name()`. -/
inductive DBusConnectReply
  | Ok
  | AlreadyConnected
  | Failed
  | OtherError
deriving DecidableEq, Repr

/-- What `Peripheral::connect` returns and observably does.  `stateAfter` is
the content of the state cell when `connect` returns (the wait itself never
writes the cell). -/
structure ConnectOutcome where
  result : Except Error Unit
  waitedOnStateCell : Bool
  stateAfter : PeripheralState
deriving Repr

/-- `Peripheral::connect`.  `wait` models what
`cvar.wait_timeout_while(lock.lock().unwrap(), timeout, |c| *c < Connected)`
comes back with: the state observed on return and the
`WaitTimeoutResult::timed_out()` flag.  In Rust that call returns
`LockResult<(MutexGuard, WaitTimeoutResult)>`, whose `Err` case is only lock
poisoning (no panics are modelled), so the source's
`.map_err(|_| Error::TimedOut(..))` never fires and `.map(|_| ())` discards
the timed-out flag: both the notified and the expired path return `Ok(())`.
On `AlreadyConnected` the `Ok(())` of the match is consumed by `?` and
execution falls through to the same wait as the success path. -/
def connect (s0 : PeripheralState) (reply : DBusConnectReply)
    (wait : PeripheralState × Bool) : ConnectOutcome :=
  match reply with
  | .Failed => ⟨.error .NotConnected, false, s0⟩
  | .OtherError => ⟨.error .DBus, false, s0⟩
  | .Ok => ⟨.ok (), true, wait.1⟩
  | .AlreadyConnected => ⟨.ok (), true, wait.1⟩

/-- Contract of `Condvar::wait_timeout_while`: when it reports that it did not
time out, the waited-on predicate `*c < Connected` is false, i.e. the observed
state is at least `Connected`. -/
def WaitContract (wait : PeripheralState × Bool) : Prop :=
  wait.2 = false → 1 ≤ wait.1.idx

/-- `Peripheral::discover_characteristics_in_range`.  `observed` is the state
the `cvar.wait_while(.., |b| *b == Connected)` call returns with; by that
wait's contract `observed ≠ Connected` (blocking lasts exactly while the state
is `Connected`). -/
def discover_characteristics_in_range (observed : PeripheralState)
    (chars : List Characteristic) (s e : Nat) : Except Error (List Characteristic) :=
  if observed = PeripheralState.NotConnected then .error .NotConnected
  else .ok (chars.filter (fun c => decide (s ≤ c.value_handle) && decide (c.value_handle ≤ e)))

/-- `Peripheral::discover_characteristics`: delegates with the full handle
range `0x0001..=0xFFFF`. -/
def discover_characteristics (observed : PeripheralState)
    (chars : List Characteristic) : Except Error (List Characteristic) :=
  discover_characteristics_in_range observed chars 0x0001 0xFFFF

/-- `HashMap::get` on the registry model. -/
def registryGet (reg : Registry) (key : Nat) : Option AttributeEntry :=
  (reg.find? (fun e => e.1 == key)).map (fun e => e.2)

/-- `Peripheral::proxy_for`: the D-Bus path for a characteristic, looked up by
its `value_handle`. -/
def proxy_for (reg : Registry) (c : Characteristic) : Option String :=
  (registryGet reg c.value_handle).map (fun e => e.path)

/-- `Peripheral::read`: resolve the characteristic's path and issue
`read_value` there (`env` is the transport: payload by path; transport-level
read failures are not modelled). Unmapped characteristics fail with
`NotSupported("read")`. -/
def read (reg : Registry) (env : String → List Nat) (c : Characteristic) :
    Except Error (List Nat) :=
  match proxy_for reg c with
  | some p => .ok (env p)
  | none => .error (.NotSupported "read")

/-- The closure passed to `find_map` in `Peripheral::read_by_type`: `Some(c)`
when the entry's characteristic has the wanted UUID and its `value_handle`
lies in the anchor's `[start_handle, end_handle]`, else `None`. -/
def matchFn (characteristic : Characteristic) (uuid : UUID)
    (e : Nat × AttributeEntry) : Option Characteristic :=
  if e.2.char.uuid == uuid
      && decide (characteristic.start_handle ≤ e.2.char.value_handle)
      && decide (e.2.char.value_handle ≤ characteristic.end_handle)
    then some e.2.char else none

/-- `Peripheral::read_by_type`: `find_map` over the registry in iteration
order; read the first match, or fail with `NotSupported("read_by_type")`. -/
def read_by_type (reg : Registry) (env : String → List Nat)
    (characteristic : Characteristic) (uuid : UUID) : Except Error (List Nat) :=
  match reg.findSome? (matchFn characteristic uuid) with
  | some c => read reg env c
  | none => .error (.NotSupported "read_by_type")

/-- What one `stop_listening` call returns and does: the listen-token cell
afterwards, the call's result, and whether `listener.remove_match` was
invoked. -/
structure StopOutcome where
  listen_token : Option Nat
  result : Except Error Unit
  removedMatch : Bool
deriving Repr

/-- `Peripheral::stop_listening`: if a token is stored, deregister it
(`remove_match`, whose success is the `removeMatchOk` flag of the opaque
transport) and clear the cell; with no token stored, do nothing and succeed.
On a transport error the `?` returns before the cell is cleared. -/
def stop_listening (token : Option Nat) (removeMatchOk : Bool) : StopOutcome :=
  match token with
  | some t => if removeMatchOk then ⟨none, .ok (), true⟩ else ⟨some t, .error .DBus, true⟩
  | none => ⟨none, .ok (), false⟩

/-- Modelled from the spec: the serialization the spec describes for
manufacturer data — "each entry serialized as little-endian 16-bit identifier
followed by its raw payload bytes, entries concatenated in iteration order". -/
def manufacturerBlobSpec (entries : List (Nat × List Nat)) : List Nat :=
  (entries.map (fun e => [e.1 % 256, e.1 / 256] ++ e.2)).flatten

/-- A handle lies inside a characteristic's `[start_handle, end_handle]` range. -/
def InRange (c : Characteristic) (h : Nat) : Prop :=
  c.start_handle ≤ h ∧ h ≤ c.end_handle

instance (c : Characteristic) (h : Nat) : Decidable (InRange c h) := by
  unfold InRange; infer_instance

/-- Two range entries do not overlap: they share no handle. -/
def RangesDisjoint (a b : Characteristic) : Prop :=
  ∀ h, InRange a h → InRange b h → False

/-- The predicate `read_by_type` searches for, at the `Prop` level. -/
def MatchesByType (characteristic : Characteristic) (uuid : UUID)
    (e : Nat × AttributeEntry) : Prop :=
  e.2.char.uuid = uuid
    ∧ characteristic.start_handle ≤ e.2.char.value_handle
    ∧ e.2.char.value_handle ≤ characteristic.end_handle

instance (c : Characteristic) (u : UUID) (e : Nat × AttributeEntry) :
    Decidable (MatchesByType c u e) := by
  unfold MatchesByType; infer_instance

/-- Key/handle coherence of the registry: every entry is keyed by its parsed
handle's numeric value (`add_attribute` inserts at key `handle.handle`). -/
def RegistryWF (reg : Registry) : Prop :=
  ∀ e ∈ reg, e.1 = e.2.handle.handle

instance (reg : Registry) : Decidable (RegistryWF reg) := by
  unfold RegistryWF; infer_instance

/-- Fixture: the registry of the spec's worked example — Service-typed handles
10, 20, 30 and Characteristic-typed handles 11, 21 — built by the
corresponding `add_attribute` calls (replace-or-append puts them in call
order, here ascending handle order). -/
def regC1sorted : Registry :=
  add_attribute (add_attribute (add_attribute (add_attribute (add_attribute []
    "service000a" ⟨10, .Service⟩ 100 0)
    "char000b" ⟨11, .Characteristic⟩ 101 0)
    "service0014" ⟨20, .Service⟩ 102 0)
    "char0015" ⟨21, .Characteristic⟩ 103 0)
    "service001e" ⟨30, .Service⟩ 104 0

/-- Fixture: the same five registry entries in a different iteration order —
equally admissible for a Rust `HashMap`, whose iteration order is arbitrary
(per-instance random hash seed). -/
def regC1bad : Registry :=
  [ (20, ⟨"service0014", ⟨20, .Service⟩, ⟨0, 0, 20, 102, 0⟩⟩)
  , (10, ⟨"service000a", ⟨10, .Service⟩, ⟨0, 0, 10, 100, 0⟩⟩)
  , (30, ⟨"service001e", ⟨30, .Service⟩, ⟨0, 0, 30, 104, 0⟩⟩)
  , (11, ⟨"char000b", ⟨11, .Characteristic⟩, ⟨0, 0, 11, 101, 0⟩⟩)
  , (21, ⟨"char0015", ⟨21, .Characteristic⟩, ⟨0, 0, 21, 103, 0⟩⟩) ]

/-- Fixture: a freshly constructed peripheral (`Peripheral::new`): default
properties, `NotConnected`, empty characteristic set and registry, no
listen token. -/
def p0 : Peripheral :=
  { props := { local_name := none
               manufacturer_data := none
               address_type := ""
               tx_power_level := none
               discovery_count := 0 }
    state := .NotConnected
    characteristics := []
    attributes_map := []
    listen_token := none }

/-! Helper lemmas about the characteristic ordering and the set model. -/

theorem Characteristic.lt_iff (a b : Characteristic) :
    Characteristic.lt a b = true ↔
      (a.start_handle < b.start_handle
        ∨ (a.start_handle = b.start_handle
          ∧ (a.end_handle < b.end_handle
            ∨ (a.end_handle = b.end_handle
              ∧ (a.value_handle < b.value_handle
                ∨ (a.value_handle = b.value_handle
                  ∧ (a.uuid < b.uuid
                    ∨ (a.uuid = b.uuid ∧ a.properties < b.properties)))))))) := by
  unfold Characteristic.lt
  split_ifs <;> simp_all

theorem Characteristic.lt_start_le {a b : Characteristic}
    (h : Characteristic.lt a b = true) : a.start_handle ≤ b.start_handle := by
  rw [Characteristic.lt_iff] at h
  omega

theorem Characteristic.lt_trans {a b c : Characteristic}
    (h1 : Characteristic.lt a b = true) (h2 : Characteristic.lt b c = true) :
    Characteristic.lt a c = true := by
  rw [Characteristic.lt_iff] at h1 h2 ⊢
  omega

theorem Characteristic.lt_of_not_lt {a b : Characteristic}
    (h1 : Characteristic.lt a b = false) (h2 : ¬ a = b) :
    Characteristic.lt b a = true := by
  obtain ⟨a1, a2, a3, a4, a5⟩ := a
  obtain ⟨b1, b2, b3, b4, b5⟩ := b
  simp only [Characteristic.mk.injEq] at h2
  have h1' : ¬ Characteristic.lt ⟨a1, a2, a3, a4, a5⟩ ⟨b1, b2, b3, b4, b5⟩ = true := by
    simp [h1]
  rw [Characteristic.lt_iff] at h1'
  rw [Characteristic.lt_iff]
  simp only at h1' h2 ⊢
  omega

theorem mem_setInsert (x c : Characteristic) :
    ∀ (s : List Characteristic), x ∈ setInsert c s → x = c ∨ x ∈ s := by
  intro s
  induction s with
  | nil => simp [setInsert]
  | cons y ys ih =>
    simp only [setInsert]
    split_ifs with h1 h2
    · intro h
      rcases List.mem_cons.mp h with h | h
      · exact Or.inl h
      · exact Or.inr h
    · exact fun h => Or.inr h
    · intro h
      rcases List.mem_cons.mp h with h | h
      · exact Or.inr (List.mem_cons.mpr (Or.inl h))
      · rcases ih h with h | h
        · exact Or.inl h
        · exact Or.inr (List.mem_cons.mpr (Or.inr h))

theorem pairwise_setInsert (c : Characteristic) :
    ∀ (s : List Characteristic),
    List.Pairwise (fun a b => Characteristic.lt a b = true) s →
    List.Pairwise (fun a b => Characteristic.lt a b = true) (setInsert c s) := by
  intro s
  induction s with
  | nil => intro _; simp [setInsert]
  | cons y ys ih =>
    intro hp
    rw [List.pairwise_cons] at hp
    obtain ⟨hy, hys⟩ := hp
    simp only [setInsert]
    split_ifs with h1 h2
    · refine List.pairwise_cons.mpr ⟨?_, List.pairwise_cons.mpr ⟨hy, hys⟩⟩
      intro z hz
      rcases List.mem_cons.mp hz with rfl | hz
      · exact h1
      · exact Characteristic.lt_trans h1 (hy z hz)
    · exact List.pairwise_cons.mpr ⟨hy, hys⟩
    · refine List.pairwise_cons.mpr ⟨?_, ih hys⟩
      intro z hz
      rcases mem_setInsert z c ys hz with rfl | hz
      · exact Characteristic.lt_of_not_lt (by simpa using h1) h2
      · exact hy z hz

theorem pairwise_foldl_setInsert :
    ∀ (l s : List Characteristic),
    List.Pairwise (fun a b => Characteristic.lt a b = true) s →
    List.Pairwise (fun a b => Characteristic.lt a b = true)
      (List.foldl (fun acc c => setInsert c acc) s l) := by
  intro l
  induction l with
  | nil => intro s h; simpa using h
  | cons c cs ih =>
    intro s h
    simpa [List.foldl_cons] using ih _ (pairwise_setInsert c s h)

theorem insertRanges_eq :
    ∀ (l : List (Handle × Characteristic)) (s : List Characteristic),
    insertRanges l s = List.foldl (fun acc c => setInsert c acc) s (rangesOf l) := by
  intro l
  induction l with
  | nil => intro s; rfl
  | cons x rest ih =>
    intro s
    obtain ⟨h, a⟩ := x
    simp only [insertRanges, rangesOf, List.foldl_cons]
    exact ih _

theorem build_sorted (reg : Registry) :
    List.Pairwise (fun a b => Characteristic.lt a b = true)
      (build_characteristic_ranges reg) := by
  unfold build_characteristic_ranges
  rw [insertRanges_eq, insertRanges_eq]
  exact pairwise_foldl_setInsert _ _ (pairwise_foldl_setInsert _ _ List.Pairwise.nil)

theorem rangesOf_start (c : Characteristic) :
    ∀ (l : List (Handle × Characteristic)),
    c ∈ rangesOf l → ∃ p ∈ l, c.start_handle = p.1.handle := by
  intro l
  induction l with
  | nil => simp [rangesOf]
  | cons x rest ih =>
    obtain ⟨h, a⟩ := x
    simp only [rangesOf]
    intro hc
    rcases List.mem_cons.mp hc with rfl | hc
    · exact ⟨(h, a), List.mem_cons_self _ _, rfl⟩
    · obtain ⟨p, hp, he⟩ := ih hc
      exact ⟨p, List.mem_cons.mpr (Or.inr hp), he⟩

theorem rangesOf_pairwise :
    ∀ (l : List (Handle × Characteristic)),
    List.Pairwise (fun p q => p.1.handle < q.1.handle) l →
    List.Pairwise (fun a b => a.end_handle < b.start_handle) (rangesOf l) := by
  intro l
  induction l with
  | nil => intro _; simp [rangesOf]
  | cons x rest ih =>
    intro hp
    rw [List.pairwise_cons] at hp
    obtain ⟨hx, hrest⟩ := hp
    obtain ⟨h, a⟩ := x
    cases rest with
    | nil => simp [rangesOf]
    | cons y rest2 =>
      simp only [rangesOf]
      refine List.pairwise_cons.mpr ⟨?_, ih hrest⟩
      intro c hc
      obtain ⟨p, hpmem, hstart⟩ := rangesOf_start c (y :: rest2) hc
      have hy : h.handle < y.1.handle := hx y (List.mem_cons_self _ _)
      have hyp : y.1.handle ≤ p.1.handle := by
        rcases List.mem_cons.mp hpmem with rfl | hpm
        · exact le_refl _
        · exact le_of_lt ((List.pairwise_cons.mp hrest).1 p hpm)
      show y.1.handle - 1 < c.start_handle
      rw [hstart]
      omega

theorem stream_pairwise (reg : Registry) (f : Nat × AttributeEntry → Bool)
    (hwf : RegistryWF reg)
    (hsorted : List.Pairwise (fun a b => a.1 < b.1) reg) :
    List.Pairwise (fun p q : Handle × Characteristic => p.1.handle < q.1.handle)
      ((reg.filter f).map (fun e => (e.2.handle, e.2.char))) := by
  rw [List.pairwise_map]
  have h1 : List.Pairwise (fun a b : Nat × AttributeEntry => a.1 < b.1) (reg.filter f) :=
    hsorted.filter f
  refine h1.imp_of_mem ?_
  intro a b ha hb hab
  have ha' := hwf a (List.mem_of_mem_filter ha)
  have hb' := hwf b (List.mem_of_mem_filter hb)
  simpa [← ha', ← hb'] using hab

theorem disjoint_of_lt {a b : Characteristic}
    (h : a.end_handle < b.start_handle) : RangesDisjoint a b := by
  intro hh h1 h2
  unfold InRange at h1 h2
  omega

theorem encode_eq_spec :
    ∀ (entries : List (Nat × List Nat)),
    (∀ e ∈ entries, e.1 < 65536 ∧ ∀ b ∈ e.2, b < 256) →
    encodeManufacturerData entries = manufacturerBlobSpec entries := by
  intro entries
  induction entries with
  | nil => intro _; rfl
  | cons e rest ih =>
    intro h
    obtain ⟨mid, data⟩ := e
    have h1 := h (mid, data) (List.mem_cons_self _ _)
    have hrest := ih (fun e he => h e (List.mem_cons_of_mem _ he))
    have hid : mid % 65536 = mid := Nat.mod_eq_of_lt h1.1
    have hdata : data.map (fun b => b % 256) = data := by
      have hcong : data.map (fun b => b % 256) = data.map id :=
        List.map_congr_left (fun b hb => Nat.mod_eq_of_lt (h1.2 b hb))
      rw [hcong, List.map_id]
    simp only [encodeManufacturerData, manufacturerBlobSpec, List.map_cons,
      List.flatten_cons] at hrest ⊢
    rw [hid, hdata, hrest]
    simp [List.cons_append, List.append_assoc]

theorem matchFn_some {a : Characteristic} {u : UUID}
    {e : Nat × AttributeEntry} {c : Characteristic} :
    matchFn a u e = some c ↔ MatchesByType a u e ∧ c = e.2.char := by
  unfold matchFn MatchesByType
  split_ifs with h
  · simp only [Bool.and_eq_true, beq_iff_eq, decide_eq_true_eq] at h
    simp only [Option.some.injEq]
    constructor
    · intro hc; exact ⟨⟨h.1.1, h.1.2, h.2⟩, hc.symm⟩
    · intro hc; exact hc.2.symm
  · simp only [Bool.and_eq_true, beq_iff_eq, decide_eq_true_eq] at h
    constructor
    · intro hc; cases hc
    · intro hc
      exact absurd ⟨⟨hc.1.1, hc.1.2.1⟩, hc.1.2.2⟩ h

theorem matchFn_none {a : Characteristic} {u : UUID} {e : Nat × AttributeEntry} :
    matchFn a u e = none ↔ ¬ MatchesByType a u e := by
  constructor
  · intro h hm
    have : matchFn a u e = some e.2.char := matchFn_some.mpr ⟨hm, rfl⟩
    rw [h] at this
    cases this
  · intro hm
    cases hfa : matchFn a u e with
    | none => rfl
    | some c => exact absurd (matchFn_some.mp hfa).1 hm

theorem findSome?_first {α β : Type} (f : α → Option β) :
    ∀ (l : List α) (b : β),
    l.findSome? f = some b →
    ∃ pre e post, l = pre ++ e :: post ∧ f e = some b ∧ ∀ e' ∈ pre, f e' = none := by
  intro l
  induction l with
  | nil => intro b h; simp [List.findSome?] at h
  | cons a l ih =>
    intro b h
    rw [List.findSome?_cons] at h
    cases hfa : f a with
    | some b' =>
      rw [hfa] at h
      refine ⟨[], a, l, by simp, ?_, by simp⟩
      simpa [hfa] using h
    | none =>
      rw [hfa] at h
      obtain ⟨pre, e, post, hl, hfe, hpre⟩ := ih b h
      refine ⟨a :: pre, e, post, by rw [hl]; rfl, hfe, ?_⟩
      intro e' he'
      rcases List.mem_cons.mp he' with rfl | he'
      · exact hfa
      · exact hpre e' he'

/-! Claim theorems. -/

/-- Claim C1 (evaluation at the failing input): a registry holding exactly
Service-typed handles 10, 20, 30 and Characteristic-typed handles 11, 21, in
the iteration order `regC1bad` (admissible for a Rust `HashMap`), does NOT
produce the claimed ranges: `build_characteristic_ranges` walks consecutive
pairs in iteration order, so the service at handle 20 gets the range [20, 9]
and the one at handle 10 gets [10, 29], instead of the claimed [20, 29] and
[10, 19]. -/
theorem C1_unordered_iteration_eval :
    build_characteristic_ranges regC1bad =
      [ ⟨10, 29, 10, 100, 0⟩, ⟨11, 20, 11, 101, 0⟩, ⟨20, 9, 20, 102, 0⟩
      , ⟨21, 65535, 21, 103, 0⟩, ⟨30, 65535, 30, 104, 0⟩ ]
    ∧ ¬ (⟨20, 29, 20, 102, 0⟩ : Characteristic) ∈ build_characteristic_ranges regC1bad := by
  constructor
  · decide
  · decide

/-- Claim C2 (counterexample): the claim's "pairwise non-overlapping" fails
even for the ascending iteration order, on the spec's own worked example:
`regC1sorted` is literally a sequence of `add_attribute` calls, and the built
set contains the service range [10, 19] and the characteristic range [11, 20],
which share handle 11. -/
theorem C2_counterexample :
    ¬ List.Pairwise RangesDisjoint (build_characteristic_ranges regC1sorted) := by
  intro hp
  have hb : build_characteristic_ranges regC1sorted =
      [ ⟨10, 19, 10, 100, 0⟩, ⟨11, 20, 11, 101, 0⟩, ⟨20, 29, 20, 102, 0⟩
      , ⟨21, 65535, 21, 103, 0⟩, ⟨30, 65535, 30, 104, 0⟩ ] := by decide
  rw [hb] at hp
  have h1 := (List.pairwise_cons.mp hp).1 ⟨11, 20, 11, 101, 0⟩ (by simp)
  exact h1 11 (by decide) (by decide)

/-- Claim C2 (amended): for a registry whose iteration order is ascending by
handle (and keyed coherently, as `add_attribute` keys it), the Service-derived
range entries are pairwise non-overlapping among themselves, the
Characteristic-derived entries are pairwise non-overlapping among themselves,
and the whole built set is ordered by ascending `start_handle`.  Ranges from
different streams may overlap (services enclose their characteristics), which
is what refutes the claim as stated. -/
theorem C2_per_type_disjoint_and_sorted (reg : Registry)
    (hwf : RegistryWF reg)
    (hsorted : List.Pairwise (fun a b => a.1 < b.1) reg) :
    List.Pairwise RangesDisjoint (rangesOf (servicesStream reg))
    ∧ List.Pairwise RangesDisjoint (rangesOf (characteristicsStream reg))
    ∧ List.Pairwise (fun a b => a.start_handle ≤ b.start_handle)
        (build_characteristic_ranges reg) := by
  refine ⟨?_, ?_, ?_⟩
  · exact (rangesOf_pairwise _
      (stream_pairwise reg _ hwf hsorted)).imp (fun h => disjoint_of_lt h)
  · exact (rangesOf_pairwise _
      (stream_pairwise reg _ hwf hsorted)).imp (fun h => disjoint_of_lt h)
  · exact (build_sorted reg).imp (fun h => Characteristic.lt_start_le h)

/-- Witness for the amended C2 at the spec's worked example registry. -/
theorem C2_per_type_disjoint_and_sorted_witness :
    List.Pairwise RangesDisjoint (rangesOf (servicesStream regC1sorted))
    ∧ List.Pairwise RangesDisjoint (rangesOf (characteristicsStream regC1sorted))
    ∧ List.Pairwise (fun a b => a.start_handle ≤ b.start_handle)
        (build_characteristic_ranges regC1sorted) :=
  C2_per_type_disjoint_and_sorted regC1sorted (by decide) (by decide)

/-- Claim C3 (evaluation at the failing input): `connect` whose D-Bus connect
command succeeds but whose condvar wait expires (no "connected" notification
within the budget, state still `NotConnected`) returns `Ok(())`, NOT the
claimed `TimedOut` error: `wait_timeout_while` yields `Err` only for lock
poisoning, so the `map_err(TimedOut)` never fires and `map` discards the
timed-out flag.  The state is indeed left at `NotConnected` (that part of the
claim holds). -/
theorem C3_timeout_returns_ok_eval :
    connect .NotConnected .Ok (.NotConnected, true) =
      { result := .ok (), waitedOnStateCell := true, stateAfter := .NotConnected } := rfl

/-- Claim C4: `discover_characteristics_in_range` observed-state behaviour.
The wait blocks exactly while the state is `Connected`, so the function runs
with an observed state ≠ `Connected` (hypothesis): if that state is
`NotConnected` it fails with `NotConnected`; otherwise it returns exactly the
cached characteristics whose `value_handle` lies in `[s, e]`. -/
theorem C4_discover_in_range (observed : PeripheralState)
    (chars : List Characteristic) (s e : Nat)
    (_hobs : observed ≠ PeripheralState.Connected) :
    (observed = PeripheralState.NotConnected →
        discover_characteristics_in_range observed chars s e = .error .NotConnected)
    ∧ (observed ≠ PeripheralState.NotConnected →
        ∃ res, discover_characteristics_in_range observed chars s e = .ok res
          ∧ ∀ c, c ∈ res ↔ c ∈ chars ∧ s ≤ c.value_handle ∧ c.value_handle ≤ e) := by
  constructor
  · intro h
    simp [discover_characteristics_in_range, h]
  · intro h
    refine ⟨chars.filter (fun c => decide (s ≤ c.value_handle) && decide (c.value_handle ≤ e)),
      by simp [discover_characteristics_in_range, h], ?_⟩
    intro c
    simp [List.mem_filter, and_assoc]

/-- Witness for C4: a peripheral that never connected fails discovery with
`NotConnected`. -/
theorem C4_discover_in_range_witness :
    discover_characteristics_in_range .NotConnected [] 1 65535 = .error .NotConnected :=
  (C4_discover_in_range .NotConnected [] 1 65535 (by decide)).1 rfl

/-- Claim C5 (counterexample): when the sink reports "already connected",
`connect` does NOT return without waiting on the state cell: the `Ok(())` of
the match arm is consumed by `?` and execution falls through to the
`wait_timeout_while` on the state cell, exactly as on the plain success
path. -/
theorem C5_counterexample :
    ¬ ((connect .NotConnected .AlreadyConnected (.NotConnected, true)).result = .ok ()
        ∧ (connect .NotConnected .AlreadyConnected (.NotConnected, true)).waitedOnStateCell
            = false) := by
  intro h
  simpa [connect] using h.2

/-- Claim C5 (amended): on "already connected" `connect` returns success, but
only after performing the state-cell wait (whose timeout result is discarded,
so the result is success regardless of the wait's outcome). -/
theorem C5_already_connected_succeeds (s0 : PeripheralState)
    (wait : PeripheralState × Bool) :
    (connect s0 .AlreadyConnected wait).result = .ok ()
    ∧ (connect s0 .AlreadyConnected wait).waitedOnStateCell = true :=
  ⟨rfl, rfl⟩

/-- Claim C6: the connection state machine under property-update
notifications: connected=true while NotConnected → Connected; connected=false
→ NotConnected from any state; services-resolved=true rebuilds the
characteristic ranges from the registry and moves to ServicesResolved;
services-resolved=false leaves the state unchanged but still notifies
waiters. -/
theorem C6_state_machine (p : Peripheral) :
    (p.state = PeripheralState.NotConnected →
      (update_properties p { noArgs with connected := some true }).peripheral.state
        = PeripheralState.Connected)
    ∧ ((update_properties p { noArgs with connected := some false }).peripheral.state
        = PeripheralState.NotConnected)
    ∧ ((update_properties p { noArgs with servicesResolved := some true }).peripheral.state
          = PeripheralState.ServicesResolved
        ∧ (update_properties p { noArgs with servicesResolved := some true }).peripheral.characteristics
          = build_characteristic_ranges p.attributes_map)
    ∧ ((update_properties p { noArgs with servicesResolved := some false }).peripheral.state
          = p.state
        ∧ (update_properties p { noArgs with servicesResolved := some false }).servicesResolvedNotifyAll
          = true) := by
  refine ⟨fun h => ?_, ?_, ⟨?_, ?_⟩, ⟨?_, ?_⟩⟩ <;>
    simp [update_properties, noArgs, *]

/-- Witness for C6 at a freshly constructed peripheral. -/
theorem C6_state_machine_witness :
    (update_properties p0 { noArgs with connected := some true }).peripheral.state
      = PeripheralState.Connected :=
  (C6_state_machine p0).1 rfl

/-- Claim C7: a manufacturer-data batch is stored as the concatenation, in
iteration order, of each entry's 16-bit id in little-endian byte order
followed by its payload bytes; in particular id 0x1234 with payload
[0xAA, 0xBB] is encoded as [0x34, 0x12, 0xAA, 0xBB]. -/
theorem C7_manufacturer_data :
    (∀ (p : Peripheral) (entries : List (Nat × List Nat)),
        (∀ e ∈ entries, e.1 < 65536 ∧ ∀ b ∈ e.2, b < 256) →
        (update_properties p { noArgs with manufacturerData := some entries
          }).peripheral.props.manufacturer_data
          = some (manufacturerBlobSpec entries))
    ∧ encodeManufacturerData [(0x1234, [0xAA, 0xBB])] = [0x34, 0x12, 0xAA, 0xBB] := by
  constructor
  · intro p entries h
    have he : encodeManufacturerData entries = manufacturerBlobSpec entries :=
      encode_eq_spec entries h
    simp [update_properties, noArgs, he]
  · decide

/-- Witness for C7 at the concrete example of the claim. -/
theorem C7_manufacturer_data_witness :
    (update_properties p0 { noArgs with manufacturerData := some [(0x1234, [0xAA, 0xBB])]
      }).peripheral.props.manufacturer_data
      = some (manufacturerBlobSpec [(0x1234, [0xAA, 0xBB])]) :=
  C7_manufacturer_data.1 p0 [(0x1234, [0xAA, 0xBB])] (by decide)

/-- Claim C8: `read_by_type` reads the first registry entry (in iteration
order) whose characteristic matches the UUID and whose `value_handle` lies
within the anchor's range, and fails with `NotSupported("read_by_type")` when
no entry matches. -/
theorem C8_read_by_type (reg : Registry) (env : String → List Nat)
    (anchor : Characteristic) (uuid : UUID) :
    ((∃ e ∈ reg, MatchesByType anchor uuid e) →
        ∃ pre e post, reg = pre ++ e :: post ∧ MatchesByType anchor uuid e
          ∧ (∀ e' ∈ pre, ¬ MatchesByType anchor uuid e')
          ∧ read_by_type reg env anchor uuid = read reg env e.2.char)
    ∧ ((∀ e ∈ reg, ¬ MatchesByType anchor uuid e) →
        read_by_type reg env anchor uuid = .error (.NotSupported "read_by_type")) := by
  constructor
  · rintro ⟨e0, he0, hm0⟩
    cases hfs : reg.findSome? (matchFn anchor uuid) with
    | none =>
      exfalso
      exact absurd hm0 (matchFn_none.mp (List.findSome?_eq_none_iff.mp hfs e0 he0))
    | some c =>
      obtain ⟨pre, e, post, hl, hfe, hpre⟩ := findSome?_first _ reg c hfs
      have hm := matchFn_some.mp hfe
      refine ⟨pre, e, post, hl, hm.1, ?_, ?_⟩
      · intro e' he'
        exact matchFn_none.mp (hpre e' he')
      · unfold read_by_type
        rw [hfs, hm.2]
  · intro hnone
    have hfs : reg.findSome? (matchFn anchor uuid) = none :=
      List.findSome?_eq_none_iff.mpr (fun e he => matchFn_none.mpr (hnone e he))
    unfold read_by_type
    rw [hfs]

/-- Witness for C8: no entry of the worked-example registry matches UUID 999
in an empty anchor range, so `read_by_type` fails with `NotSupported`. -/
theorem C8_read_by_type_witness :
    read_by_type regC1sorted (fun _ => []) ⟨0, 0, 0, 0, 0⟩ 999
      = .error (.NotSupported "read_by_type") :=
  (C8_read_by_type regC1sorted (fun _ => []) ⟨0, 0, 0, 0, 0⟩ 999).2 (by decide)

/-- Claim C9: `stop_listening` is idempotent: with the deregistration command
succeeding, a first call returns success, and a second call returns success
while performing no deregistration and leaving the listen-token cell
unchanged. -/
theorem C9_stop_listening_idempotent (token : Option Nat) (removeOk2 : Bool) :
    (stop_listening token true).result = .ok ()
    ∧ stop_listening (stop_listening token true).listen_token removeOk2
        = { listen_token := (stop_listening token true).listen_token
            result := .ok ()
            removedMatch := false } := by
  cases token <;> exact ⟨rfl, rfl⟩

/-- Claim C10: `discover_characteristics` returns exactly what
`discover_characteristics_in_range(0x0001, 0xFFFF)` returns, and in
particular no returned characteristic has `value_handle = 0`. -/
theorem C10_discover_equiv (observed : PeripheralState)
    (chars : List Characteristic) :
    discover_characteristics observed chars
      = discover_characteristics_in_range observed chars 1 65535
    ∧ (∀ res c, discover_characteristics observed chars = .ok res → c ∈ res →
        c.value_handle ≠ 0) := by
  refine ⟨rfl, ?_⟩
  intro res c hok hc
  unfold discover_characteristics discover_characteristics_in_range at hok
  split_ifs at hok with h <;>
    first
      | exact Except.noConfusion hok
      | (rw [Except.ok.injEq] at hok
         subst hok
         have hmem := (List.mem_filter.mp hc).2
         simp only [Bool.and_eq_true, decide_eq_true_eq] at hmem
         omega)

/-- Witness for C10: the single in-range characteristic with value_handle 5
is returned and is nonzero. -/
theorem C10_discover_equiv_witness :
    (⟨1, 1, 5, 0, 0⟩ : Characteristic).value_handle ≠ 0 :=
  (C10_discover_equiv .ServicesResolved [⟨1, 1, 5, 0, 0⟩]).2
    [⟨1, 1, 5, 0, 0⟩] ⟨1, 1, 5, 0, 0⟩ rfl (by simp)

end Btleplug
